import Mathlib

/-!
Verification of the Railway Scheduling Core
(`src/opt-engine/src/optimizer.py`, `performance_monitor.py`, `schemas.py`)
against its natural-language specification.

The CP-SAT model built by `RailwayOptimizer._create_model` is embedded
shallowly: an `Assign` records a value for every decision variable the
model creates (including the auxiliary booleans created inside the
constraint builders), and each `_add_*_constraints` method becomes a
Boolean check that the assignment satisfies every constraint the method
emits.  `modelFeasible` is the conjunction of all of them, so feasible
assignments of the CP-SAT model correspond exactly to assignments with
`modelFeasible … = true`.

Time values are minutes from the base instant (the code uses `datetime`
offsets from `datetime.now()`; only differences of instants matter to
the claims, so instants are embedded as minute offsets).  Float weights
are embedded as rationals with the same literal values.
-/

namespace RailOptima

/-- `TrainData` from `schemas.py`.  `scheduled_arrival` is embedded as the
minute offset that `_get_scheduled_start_minutes` computes from it (minutes
from the base midnight); the field is mandatory in the pydantic model, so
the embedded value is always present. -/
structure TrainData where
  train_id : String
  priority : Int
  route : List String
  scheduled_arrival : Int
deriving DecidableEq, Repr

/-- `TrackData` from `schemas.py` (fields the optimizer reads). -/
structure TrackData where
  segment_id : String
  from_station : String
  to_station : String
  capacity : Nat
deriving DecidableEq, Repr

/-- `ConflictData` from `schemas.py`. -/
structure ConflictData where
  conflict_id : String
  train_ids : List String
  resource_id : String
  conflict_type : String
  severity : Int
deriving DecidableEq, Repr

/-- `OptimizationConfig` from `optimizer.py` (fields the model reads). -/
structure OptimizationConfig where
  time_horizon_minutes : Nat
  headway_buffer_minutes : Nat
  delay_weight : ℚ
  conflict_weight : ℚ
  priority_multiplier : ℚ
deriving DecidableEq, Repr

/-- A total valuation of every variable family `_create_model` creates.
`x`, `s`, `c`, `p`, `j` are the five arena families; `leaving`,
`completing`, `can_start`, `same_platform` are the auxiliary booleans the
builders create (`leaving` is keyed by the index of the chain segment the
loop is at, matching one fresh variable per loop iteration). -/
structure Assign where
  x : String → String → Nat → Bool
  s : String → Nat
  c : String → Bool
  p : String → String → Int
  j : String → Nat
  leaving : String → Nat → Nat → Bool
  completing : String → Nat → Bool
  can_start : String → Nat → Bool
  same_platform : String → String → String → Bool

/-- Consecutive pairs of a list: `[a,b,c] ↦ [(a,b),(b,c)]`. -/
def consecutivePairs : List α → List (α × α)
  | a :: b :: rest => (a, b) :: consecutivePairs (b :: rest)
  | _ => []

/-- A track connects two stations in either direction (the unordered
endpoint match in `_get_route_segments`). -/
def matchesStations (k : TrackData) (a b : String) : Bool :=
  (k.from_station == a && k.to_station == b) ||
  (k.from_station == b && k.to_station == a)

/-- `RailwayOptimizer._get_route_segments`: for each consecutive station
pair of the route, the segment id of the first matching track; pairs with no
matching track contribute nothing. -/
def get_route_segments (tr : TrainData) (tracks : List TrackData) : List String :=
  (consecutivePairs tr.route).filterMap fun ab =>
    (tracks.find? fun k => matchesStations k ab.1 ab.2).map (·.segment_id)

/-- `RailwayOptimizer._get_route_segments_from_train`: hyphenated
station-pair names, independent of the track list. -/
def get_route_segments_from_train (tr : TrainData) : List String :=
  (consecutivePairs tr.route).map fun ab => ab.1 ++ "-" ++ ab.2

/-- The keys of the occupancy dictionary `x` built at the top of
`_create_model`: one entry per (train, track) pair. -/
def xKeys (trains : List TrainData) (tracks : List TrackData) : List (String × String) :=
  trains.flatMap fun tr => tracks.map fun k => (tr.train_id, k.segment_id)

/-- The tick list `time_slots = range(time_horizon_minutes)`. -/
def ticks (cfg : OptimizationConfig) : List Nat :=
  List.range cfg.time_horizon_minutes

/-- Boolean implication, the semantics of `Add(…).OnlyEnforceIf(lit)` and
`AddImplication`. -/
def bimp (a b : Bool) : Bool := !a || b

/-- All ordered pairs of list elements with the first strictly earlier in
the list: the `if i >= j: continue` double loops. -/
def idxPairs : List α → List (α × α)
  | [] => []
  | a :: rest => (rest.map fun b => (a, b)) ++ idxPairs rest

/-- Number of trains of `trains` whose occupancy variable for segment
`sid` at tick `τ` is set. -/
def occCount (a : Assign) (trains : List TrainData) (sid : String) (τ : Nat) : Nat :=
  (trains.filter fun tr => a.x tr.train_id sid τ).length

/-- `_add_capacity_constraints`: for every track and tick, the occupancy
sum is at most the track capacity.  (The `segment_id in x[train_id]`
guard always holds: `x` is built for every (train, track) pair.) -/
def capacityOk (cfg : OptimizationConfig) (trains : List TrainData)
    (tracks : List TrackData) (a : Assign) : Bool :=
  tracks.all fun k => (ticks cfg).all fun τ =>
    occCount a trains k.segment_id τ ≤ k.capacity

/-- `_add_route_continuity_constraints`.  Trains whose derived chain has
fewer than two segments are skipped entirely (the `continue`).  For each
consecutive chain index `i` and tick `τ < H-1` a fresh `leaving` boolean
half-reifies the move: `leaving → x[cur,τ]=1 ∧ x[cur,τ+1]=0 ∧
x[next,τ+1]=1`.  Finally the last chain segment must be occupied at some
tick. -/
def routeContinuityOk (cfg : OptimizationConfig) (trains : List TrainData)
    (tracks : List TrackData) (a : Assign) : Bool :=
  trains.all fun tr =>
    let segs := get_route_segments tr tracks
    if segs.length < 2 then true
    else
      ((List.range (segs.length - 1)).all fun i =>
        (List.range (cfg.time_horizon_minutes - 1)).all fun τ =>
          bimp (a.leaving tr.train_id i τ)
            (a.x tr.train_id (segs.getD i "") τ &&
             !(a.x tr.train_id (segs.getD i "") (τ + 1)) &&
             a.x tr.train_id (segs.getD (i + 1) "") (τ + 1)))
      &&
      ((ticks cfg).any fun τ => a.x tr.train_id (segs.getLast?.getD "") τ)

/-- `_add_headway_constraints`: `headway = headway_buffer_minutes + 3`;
for each track, each list-index-ordered pair of trains, each
`τ < H - headway` and each `h` in `1 … headway` (with the redundant
`τ + h < H` guard kept), occupancy of the first train implies
non-occupancy of the second `h` ticks later. -/
def headwayOk (cfg : OptimizationConfig) (trains : List TrainData)
    (tracks : List TrackData) (a : Assign) : Bool :=
  let H := cfg.time_horizon_minutes
  let hw := cfg.headway_buffer_minutes + 3
  tracks.all fun k =>
    (idxPairs trains).all fun pr =>
      (List.range (H - hw)).all fun τ =>
        (List.range hw).all fun hpred =>
          if τ + (hpred + 1) < H then
            bimp (a.x pr.1.train_id k.segment_id τ)
                 (!(a.x pr.2.train_id k.segment_id (τ + (hpred + 1))))
          else true

/-- The `station_trains` grouping of `_add_platform_constraints`: Python
dict in insertion order, each train appended once per occurrence of the
station in its route. -/
def addToGroups (gs : List (String × List TrainData)) (st : String)
    (tr : TrainData) : List (String × List TrainData) :=
  match gs with
  | [] => [(st, [tr])]
  | (s0, l) :: rest =>
    if s0 = st then (s0, l ++ [tr]) :: rest
    else (s0, l) :: addToGroups rest st tr

def stationGroups (trains : List TrainData) : List (String × List TrainData) :=
  trains.foldl (fun gs tr => tr.route.foldl (fun gs2 st => addToGroups gs2 st tr) gs) []

/-- `_add_platform_constraints`: per station, per ordered pair of trains
visiting it, a fully reified `same_platform` boolean: set exactly when
the two platform variables coincide.  (The dictionary-membership guards
always hold: `p` is keyed by every station of each train route.) -/
def platformOk (trains : List TrainData) (a : Assign) : Bool :=
  (stationGroups trains).all fun g =>
    (idxPairs g.2).all fun pr =>
      bimp (a.same_platform pr.1.train_id pr.2.train_id g.1)
           (a.p pr.1.train_id g.1 == a.p pr.2.train_id g.1) &&
      bimp (!(a.same_platform pr.1.train_id pr.2.train_id g.1))
           (a.p pr.1.train_id g.1 != a.p pr.2.train_id g.1)

/-- The conflict train ids kept by the membership guard in
`_add_conflict_constraints`: `train_id in x and resource_id in x[train_id]`. -/
def conflictPresent (trains : List TrainData) (tracks : List TrackData)
    (q : ConflictData) : List String :=
  q.train_ids.filter fun tid =>
    (trains.any fun tr => tr.train_id == tid) &&
    (tracks.any fun k => k.segment_id == q.resource_id)

/-- Occupancy sum over the present trains of the conflict at tick `τ`. -/
def conflictOccCount (trains : List TrainData) (tracks : List TrackData)
    (q : ConflictData) (a : Assign) (τ : Nat) : Nat :=
  ((conflictPresent trains tracks q).filter fun tid =>
    a.x tid q.resource_id τ).length

/-- `_add_conflict_constraints`: only conflicts whose `conflict_type` is
`"track_occupation"` and whose resource matches a track are handled; per
tick, when more than one involved train has variables, `c[q]` is reified
against the capacity threshold (`¬c → Σ ≤ cap`, `c → Σ ≥ cap+1`). -/
def conflictOk (cfg : OptimizationConfig) (trains : List TrainData)
    (tracks : List TrackData) (conflicts : List ConflictData) (a : Assign) : Bool :=
  conflicts.all fun q =>
    if q.conflict_type = "track_occupation" then
      match tracks.find? (fun k => k.segment_id == q.resource_id) with
      | none => true
      | some k =>
        (ticks cfg).all fun τ =>
          if 1 < (conflictPresent trains tracks q).length then
            bimp (!(a.c q.conflict_id))
                 (conflictOccCount trains tracks q a τ ≤ k.capacity) &&
            bimp (a.c q.conflict_id)
                 (k.capacity + 1 ≤ conflictOccCount trains tracks q a τ)
          else true
    else true

/-- `_get_scheduled_start_minutes`: the minute offset of the scheduled
start; always present (`scheduled_arrival` is mandatory). -/
def get_scheduled_start_minutes (tr : TrainData) : Int :=
  tr.scheduled_arrival

/-- `_add_timing_constraints`.  Both halves guard on membership of the
hyphenated station-pair names of `_get_route_segments_from_train` in the
`x` dictionary keyed by real segment ids, so they only bind when segment
ids follow the `"From-To"` naming.  The completion half half-reifies
`completing → x[last,τ]=1 ∧ x[last,τ+1]=0 ∧ j = τ+1`; the start half
forces `x[first,τ]=0` for `τ < σ` and half-reifies
`can_start → τ ≥ σ + s`. -/
def timingOk (cfg : OptimizationConfig) (trains : List TrainData)
    (tracks : List TrackData) (a : Assign) : Bool :=
  let segIds := tracks.map (·.segment_id)
  trains.all fun tr =>
    let segs2 := get_route_segments_from_train tr
    (match segs2.getLast? with
     | none => true
     | some last =>
       if segIds.contains last then
         (ticks cfg).all fun τ =>
           if τ < cfg.time_horizon_minutes - 1 then
             bimp (a.completing tr.train_id τ)
               (a.x tr.train_id last τ && !(a.x tr.train_id last (τ + 1)) &&
                (a.j tr.train_id == τ + 1))
           else true
       else true)
    &&
    (match segs2.head? with
     | none => true
     | some first =>
       if segIds.contains first then
         (ticks cfg).all fun τ =>
           if (τ : Int) < get_scheduled_start_minutes tr then
             !(a.x tr.train_id first τ)
           else
             bimp (a.can_start tr.train_id τ)
               (decide (get_scheduled_start_minutes tr + (a.s tr.train_id : Int) ≤ (τ : Int)))
       else true)

/-- Variable domains declared in `_create_model`: `s ∈ [0, min 120 (H/2)]`,
`j ∈ [0, H]`, `p ∈ [1, 10]` for every station of the route. -/
def domainsOk (cfg : OptimizationConfig) (trains : List TrainData) (a : Assign) : Bool :=
  trains.all fun tr =>
    (a.s tr.train_id ≤ min 120 (cfg.time_horizon_minutes / 2)) &&
    (a.j tr.train_id ≤ cfg.time_horizon_minutes) &&
    (tr.route.all fun st =>
      (1 ≤ a.p tr.train_id st : Bool) && (a.p tr.train_id st ≤ 10 : Bool))

/-- Feasibility of an assignment for the model built by `_create_model`:
the declared variable domains plus every emitted constraint. -/
def modelFeasible (cfg : OptimizationConfig) (trains : List TrainData)
    (tracks : List TrackData) (conflicts : List ConflictData) (a : Assign) : Bool :=
  domainsOk cfg trains a &&
  capacityOk cfg trains tracks a &&
  routeContinuityOk cfg trains tracks a &&
  headwayOk cfg trains tracks a &&
  platformOk trains a &&
  conflictOk cfg trains tracks conflicts a &&
  timingOk cfg trains tracks a

/-! ## Objective (`_set_objective`) -/

/-- The list `objective_terms` exactly as `_set_objective` builds it:
priority-weighted delays, then journey times, then conflict penalties,
then the single total-disruption term.  Float literals `0.1` and `0.01`
are embedded as the rationals they denote. -/
def objectiveTerms (cfg : OptimizationConfig) (trains : List TrainData)
    (conflicts : List ConflictData) (a : Assign) : List ℚ :=
  (trains.map fun tr =>
    (cfg.delay_weight * (6 - (tr.priority : ℚ)) * cfg.priority_multiplier) *
      (a.s tr.train_id : ℚ)) ++
  (trains.map fun tr =>
    (cfg.delay_weight * (1 / 10)) * (a.j tr.train_id : ℚ)) ++
  (conflicts.map fun q =>
    (cfg.conflict_weight * (6 - (q.severity : ℚ))) *
      (if a.c q.conflict_id then 1 else 0)) ++
  [cfg.delay_weight * (1 / 100) *
    (trains.map fun tr => (a.s tr.train_id : ℚ)).sum]

/-- The minimized objective: `model.Minimize(sum(objective_terms))`. -/
def objectiveValue (cfg : OptimizationConfig) (trains : List TrainData)
    (conflicts : List ConflictData) (a : Assign) : ℚ :=
  (objectiveTerms cfg trains conflicts a).sum

/-- Modelled from the spec, §4.4 objective formula:
`Σ_t wD·(6−priority)·mP·s[t] + Σ_t wD·0.1·j[t] + Σ_q wC·(6−severity)·c[q]
 + wD·0.01·Σ_t s[t]`. -/
def objectiveSpecFormula (cfg : OptimizationConfig) (trains : List TrainData)
    (conflicts : List ConflictData) (a : Assign) : ℚ :=
  (trains.map fun tr =>
    cfg.delay_weight * (6 - (tr.priority : ℚ)) * cfg.priority_multiplier *
      (a.s tr.train_id : ℚ)).sum +
  (trains.map fun tr =>
    cfg.delay_weight * (1 / 10) * (a.j tr.train_id : ℚ)).sum +
  (conflicts.map fun q =>
    cfg.conflict_weight * (6 - (q.severity : ℚ)) *
      (if a.c q.conflict_id then 1 else 0)).sum +
  cfg.delay_weight * (1 / 100) *
    (trains.map fun tr => (a.s tr.train_id : ℚ)).sum

/-! ## Extractor (`_extract_schedule`, `_calculate_metrics`) -/

/-- `ScheduleEntry` from `schemas.py`; instants as minute offsets from the
base instant. -/
structure ScheduleEntry where
  train_id : String
  segment_id : String
  start_time : Nat
  end_time : Nat
  platform : Option Int
deriving DecidableEq, Repr

/-- The scan inside `_extract_schedule` over one (train, track) pair:
walks the remaining ticks carrying the mutable `start_time`/`end_time`;
on a set tick it fixes the start (first time only) and advances the end;
on a clear tick after a start it `break`s. -/
def findOccupation (occ : Nat → Bool) :
    List Nat → Option Nat → Option Nat → Option Nat × Option Nat
  | [], st, en => (st, en)
  | τ :: rest, st, en =>
    if occ τ then findOccupation occ rest (some (st.getD τ)) (some (τ + 1))
    else if st.isSome then (st, en)
    else findOccupation occ rest st en

/-- Platform reported for the entries of a train: the `p` value at the first
station of its route (the loop breaks at the first station, and `p` is
materialized for every station of the route). -/
def platformFor (tr : TrainData) (a : Assign) : Option Int :=
  tr.route.head?.map fun st => a.p tr.train_id st

/-- The schedule entry `_extract_schedule` appends for one
(train, track) pair, if the scan found an occupation period. -/
def entryFor (cfg : OptimizationConfig) (tr : TrainData) (k : TrackData)
    (a : Assign) : Option ScheduleEntry :=
  match findOccupation (a.x tr.train_id k.segment_id)
      (List.range cfg.time_horizon_minutes) none none with
  | (some s0, some e0) =>
    some { train_id := tr.train_id, segment_id := k.segment_id,
           start_time := s0, end_time := e0, platform := platformFor tr a }
  | _ => none

/-- Stable insertion by `start_time`: the new entry goes after every
already-placed entry with a `start_time` not larger than its own.  A
stable sort by one key is unique, so this is the embedding of the stable
Python `sorted(schedule, key=lambda x: x.start_time)`. -/
def insertByStart (e : ScheduleEntry) : List ScheduleEntry → List ScheduleEntry
  | [] => [e]
  | f :: rest =>
    if f.start_time ≤ e.start_time then f :: insertByStart e rest
    else e :: f :: rest

def sortByStart (l : List ScheduleEntry) : List ScheduleEntry :=
  l.foldl (fun acc e => insertByStart e acc) []

/-- `_extract_schedule`: one candidate entry per (train, track) pair in
input order, then the stable sort by `start_time`. -/
def extract_schedule (cfg : OptimizationConfig) (trains : List TrainData)
    (tracks : List TrackData) (a : Assign) : List ScheduleEntry :=
  sortByStart (trains.flatMap fun tr => tracks.filterMap fun k => entryFor cfg tr k a)

/-- Modelled from the spec, §4.6 extractor: all maximal contiguous runs
of `x[t,k,·]=1` over ticks `0 … H−1`, in ascending order, as
`(start, end)` pairs with `end = last tick + 1`. -/
def maximalRunsAux (occ : Nat → Bool) :
    List Nat → Option (Nat × Nat) → List (Nat × Nat)
  | [], none => []
  | [], some r => [r]
  | τ :: rest, none =>
    if occ τ then maximalRunsAux occ rest (some (τ, τ + 1))
    else maximalRunsAux occ rest none
  | τ :: rest, some r =>
    if occ τ then maximalRunsAux occ rest (some (r.1, τ + 1))
    else r :: maximalRunsAux occ rest none

def maximalRuns (occ : Nat → Bool) (H : Nat) : List (Nat × Nat) :=
  maximalRunsAux occ (List.range H) none

/-- `_calculate_metrics`: total delay and the `conflicts_resolved` count
(conflicts whose `c` value is 0). -/
def conflictsResolved (conflicts : List ConflictData) (a : Assign) : Nat :=
  (conflicts.filter fun q => a.c q.conflict_id = false).length

def totalDelay (trains : List TrainData) (a : Assign) : Nat :=
  (trains.map fun tr => a.s tr.train_id).sum

/-! ## Solver driver and `optimize` -/

/-- CP-SAT termination statuses distinguished by `_solve_model`. -/
inductive CpStatus
  | OPTIMAL
  | FEASIBLE
  | INFEASIBLE
  | UNKNOWN
deriving DecidableEq, Repr

/-- `_solve_model`: the solver (with its assignment) is returned exactly
on `OPTIMAL` and `FEASIBLE`; otherwise `None`.  The status and the
assignment the solver would produce are inputs of the embedding. -/
def solve_model (st : CpStatus) (a : Assign) : Option Assign :=
  match st with
  | .OPTIMAL => some a
  | .FEASIBLE => some a
  | .INFEASIBLE => none
  | .UNKNOWN => none

/-- `OptimizationResult` from `schemas.py` (wall-clock `solve_time` is
real time and is not modelled). -/
structure OptimizationResult where
  schedule : List ScheduleEntry
  objective_value : ℚ
  conflicts_resolved : Nat
  total_delay_minutes : Nat
deriving DecidableEq, Repr

/-- `RailwayOptimizer.optimize`: on a solution, extract schedule and
metrics; otherwise raise the single
`"Optimization failed - no feasible solution found"` error. -/
def optimize (trains : List TrainData) (tracks : List TrackData)
    (conflicts : List ConflictData) (cfg : OptimizationConfig)
    (st : CpStatus) (a : Assign) : Except String OptimizationResult :=
  match solve_model st a with
  | some sol =>
    .ok { schedule := extract_schedule cfg trains tracks sol,
          objective_value := objectiveValue cfg trains conflicts sol,
          conflicts_resolved := conflictsResolved conflicts sol,
          total_delay_minutes := totalDelay trains sol }
  | none => .error "Optimization failed - no feasible solution found"

/-- `GurobiOptimizer.optimize`: both the unavailable branch and the
"placeholder" branch call `super().optimize` with the same arguments. -/
def gurobi_optimize (gurobi_available : Bool) (trains : List TrainData)
    (tracks : List TrackData) (conflicts : List ConflictData)
    (cfg : OptimizationConfig) (st : CpStatus) (a : Assign) :
    Except String OptimizationResult :=
  if gurobi_available = false then optimize trains tracks conflicts cfg st a
  else optimize trains tracks conflicts cfg st a

/-! ## Performance monitor (`performance_monitor.py`) -/

/-- `OptimizationMetrics` (the fields relevant to the ring claim;
wall-clock, memory and CPU snapshots are real-time values and are not
modelled). -/
structure OptimizationMetrics where
  num_trains : Nat
  num_tracks : Nat
  num_conflicts : Nat
  objective_value : ℚ
  conflicts_resolved : Nat
  total_delay_minutes : Int
  solver_status : String
deriving DecidableEq, Repr

structure PerformanceMonitor where
  metrics_history : List OptimizationMetrics
  current_metrics : Option OptimizationMetrics
deriving DecidableEq, Repr

/-- `PerformanceMonitor.__init__`. -/
def PerformanceMonitor.init : PerformanceMonitor := ⟨[], none⟩

/-- `start_optimization`: installs a fresh current record. -/
def start_optimization (m : PerformanceMonitor) (nt nk nc : Nat) : PerformanceMonitor :=
  let fresh : OptimizationMetrics :=
    { num_trains := nt, num_tracks := nk, num_conflicts := nc,
      objective_value := 0, conflicts_resolved := 0,
      total_delay_minutes := 0, solver_status := "" }
  { m with current_metrics := some fresh }

/-- `end_optimization`: no-op without a current record; otherwise update
the current record, append it to the history, and truncate the history
to its last 100 elements when it exceeds 100 (`history[-100:]`).  The
current record is not cleared. -/
def end_optimization (m : PerformanceMonitor) (obj : ℚ) (res : Nat)
    (delay : Int) (status : String) : PerformanceMonitor :=
  match m.current_metrics with
  | none => m
  | some cur =>
    let updated : OptimizationMetrics :=
      { cur with objective_value := obj, conflicts_resolved := res,
                 total_delay_minutes := delay, solver_status := status }
    let hist := m.metrics_history ++ [updated]
    { metrics_history :=
        if 100 < hist.length then hist.drop (hist.length - 100) else hist,
      current_metrics := some updated }

/-- A call of the monitor API. -/
inductive MonitorOp
  | startOpt (nt nk nc : Nat)
  | endOpt (obj : ℚ) (res : Nat) (delay : Int) (status : String)

def monitorStep (m : PerformanceMonitor) : MonitorOp → PerformanceMonitor
  | .startOpt nt nk nc => start_optimization m nt nk nc
  | .endOpt obj res delay status => end_optimization m obj res delay status

def runMonitor (ops : List MonitorOp) (m : PerformanceMonitor) : PerformanceMonitor :=
  ops.foldl monitorStep m

/-- Modelled from the spec: the unbounded journal of completed runs, in
completion order — identical to `end_optimization` but never truncating. -/
def end_optimization_unbounded (m : PerformanceMonitor) (obj : ℚ) (res : Nat)
    (delay : Int) (status : String) : PerformanceMonitor :=
  match m.current_metrics with
  | none => m
  | some cur =>
    let updated : OptimizationMetrics :=
      { cur with objective_value := obj, conflicts_resolved := res,
                 total_delay_minutes := delay, solver_status := status }
    { metrics_history := m.metrics_history ++ [updated],
      current_metrics := some updated }

def monitorStepUnbounded (m : PerformanceMonitor) : MonitorOp → PerformanceMonitor
  | .startOpt nt nk nc => start_optimization m nt nk nc
  | .endOpt obj res delay status => end_optimization_unbounded m obj res delay status

def runMonitorUnbounded (ops : List MonitorOp) (m : PerformanceMonitor) : PerformanceMonitor :=
  ops.foldl monitorStepUnbounded m

/-- The last `n` elements of a list. -/
def takeLast (n : Nat) (l : List α) : List α :=
  l.drop (l.length - n)

/-! ## Concrete instances used to evaluate the embedding -/

/-- Config with a 4-minute horizon and the default weights. -/
def cfgH4 : OptimizationConfig :=
  { time_horizon_minutes := 4, headway_buffer_minutes := 2,
    delay_weight := 1, conflict_weight := 100, priority_multiplier := 2 }

/-- Config with an 8-minute horizon and the default weights. -/
def cfgH8 : OptimizationConfig :=
  { time_horizon_minutes := 8, headway_buffer_minutes := 2,
    delay_weight := 1, conflict_weight := 100, priority_multiplier := 2 }

/-- Assignment with everything off / at its least value. -/
def baseAssign : Assign :=
  { x := fun _ _ _ => false, s := fun _ => 0, c := fun _ => false,
    p := fun _ _ => 1, j := fun _ => 0,
    leaving := fun _ _ _ => false, completing := fun _ _ => false,
    can_start := fun _ _ => false, same_platform := fun _ _ _ => true }

def trainT1C1 : TrainData := ⟨"T1", 3, ["A", "B", "C"], 0⟩
def trainsC1 : List TrainData := [trainT1C1]
def tracksC1 : List TrackData := [⟨"K1", "A", "B", 1⟩, ⟨"K2", "B", "C", 1⟩]
/-- Occupies `K1` at tick 0, vanishes at tick 1, reappears on `K2` at
tick 3; every auxiliary `leaving` boolean is off. -/
def assignC1 : Assign :=
  { baseAssign with x := fun tid sid τ =>
      tid == "T1" && ((sid == "K1" && τ == 0) || (sid == "K2" && τ == 3)) }

def trainsC2 : List TrainData := [⟨"T1", 3, ["A", "B"], 0⟩]
def tracksC2 : List TrackData := [⟨"K1", "A", "B", 1⟩]
/-- Two maximal runs on the single track: ticks {0} and {2}. -/
def assignC2 : Assign :=
  { baseAssign with x := fun tid sid τ =>
      tid == "T1" && sid == "K1" && (τ == 0 || τ == 2) }

def trainT1C3 : TrainData := ⟨"T1", 3, ["A", "B"], 0⟩
def trainT2C3 : TrainData := ⟨"T2", 3, ["A", "B"], 0⟩
def trainsC3 : List TrainData := [trainT1C3, trainT2C3]
def trackC3 : TrackData := ⟨"K1", "A", "B", 1⟩
def tracksC3 : List TrackData := [trackC3]
/-- `T2` occupies at tick 0 and `T1` one tick later: no emitted headway
constraint mentions this order of the pair. -/
def assignC3 : Assign :=
  { baseAssign with x := fun tid sid τ =>
      sid == "K1" && ((tid == "T2" && τ == 0) || (tid == "T1" && τ == 1)) }

def trainsC4 : List TrainData :=
  [⟨"TA", 3, ["A", "B"], 0⟩, ⟨"TB", 3, ["A", "B"], 0⟩]
def trackC4 : TrackData := ⟨"K1", "A", "B", 1⟩
def tracksC4 : List TrackData := [trackC4]
def conflictC4 : ConflictData := ⟨"q1", ["TA", "TB"], "K1", "platform_conflict", 2⟩
/-- Nothing occupies anything, yet the conflict variable is set. -/
def assignC4 : Assign :=
  { baseAssign with c := fun cid => cid == "q1" }

def conflictC4w : ConflictData := ⟨"q2", ["TA", "TB"], "K1", "track_occupation", 2⟩
/-- Staggered occupation of the conflicted track, conflict variable off. -/
def assignC4w : Assign :=
  { baseAssign with x := fun tid sid τ =>
      sid == "K1" && ((tid == "TA" && τ == 0) || (tid == "TB" && τ == 1)) }

def trainT1C5 : TrainData := ⟨"T1", 3, ["A", "B"], 0⟩
def trainsC5 : List TrainData := [trainT1C5]
def tracksC5 : List TrackData := [⟨"K1", "A", "B", 1⟩, ⟨"K2", "C", "D", 1⟩]

def trainsC8 : List TrainData :=
  [⟨"B", 3, ["C", "D"], 0⟩, ⟨"A", 3, ["E", "F"], 0⟩]
def tracksC8 : List TrackData := [⟨"K1", "C", "D", 1⟩, ⟨"K2", "E", "F", 1⟩]
/-- Both trains start at tick 0 on their own tracks; the train with the
larger id is listed first. -/
def assignC8 : Assign :=
  { baseAssign with x := fun tid sid τ =>
      τ == 0 && ((tid == "B" && sid == "K1") || (tid == "A" && sid == "K2")) }

/-! ## Claim-level predicates -/

/-- The headway property exactly as claim C3 states it: over every
ordered pair of distinct trains, every shared segment, every tick and
every separation `h` in `1 … hB+3` that stays on the grid. -/
def headwayClaimProp (cfg : OptimizationConfig) (trains : List TrainData)
    (tracks : List TrackData) (a : Assign) : Prop :=
  ∀ t1 ∈ trains, ∀ t2 ∈ trains, t1.train_id ≠ t2.train_id →
    ∀ k ∈ tracks, ∀ τ h : Nat,
      1 ≤ h → h ≤ cfg.headway_buffer_minutes + 3 →
      τ + h < cfg.time_horizon_minutes →
      a.x t1.train_id k.segment_id τ = true →
      a.x t2.train_id k.segment_id (τ + h) = false

/-- The conflict occupancy sum `Σ_{t ∈ T_q} x[t,r,τ]` of the claim, over
the own train set of the conflict. -/
def conflictTrainOcc (q : ConflictData) (a : Assign) (τ : Nat) : Nat :=
  (q.train_ids.filter fun tid => a.x tid q.resource_id τ).length

/-- The reification property exactly as claim C4 states it: for every
input conflict (of any kind) over a resource matching a track. -/
def conflictClaimProp (cfg : OptimizationConfig) (tracks : List TrackData)
    (conflicts : List ConflictData) (a : Assign) : Prop :=
  ∀ q ∈ conflicts, ∀ k ∈ tracks, k.segment_id = q.resource_id →
    ∀ τ, τ < cfg.time_horizon_minutes →
      (conflictTrainOcc q a τ ≤ k.capacity → a.c q.conflict_id = false) ∧
      (k.capacity + 1 ≤ conflictTrainOcc q a τ → a.c q.conflict_id = true)

/-- Ascending by start instant. -/
def startLE (e1 e2 : ScheduleEntry) : Prop :=
  e1.start_time ≤ e2.start_time

/-- The order claim C8 asserts: ascending by start instant with ties
broken by train id ascending.  String order is stated on the underlying
character lists, which is exactly how `String.lt` is defined. -/
def startThenIdLE (e1 e2 : ScheduleEntry) : Prop :=
  e1.start_time < e2.start_time ∨
    (e1.start_time = e2.start_time ∧
      (e1.train_id.data < e2.train_id.data ∨ e1.train_id = e2.train_id))

/-! ## General lemmas -/

theorem bimp_eq {a b : Bool} : bimp a b = true ↔ (a = true → b = true) := by
  cases a <;> cases b <;> simp [bimp]

theorem modelFeasible_parts {cfg : OptimizationConfig} {trains : List TrainData}
    {tracks : List TrackData} {conflicts : List ConflictData} {a : Assign}
    (h : modelFeasible cfg trains tracks conflicts a = true) :
    domainsOk cfg trains a = true ∧ capacityOk cfg trains tracks a = true ∧
    routeContinuityOk cfg trains tracks a = true ∧
    headwayOk cfg trains tracks a = true ∧ platformOk trains a = true ∧
    conflictOk cfg trains tracks conflicts a = true ∧
    timingOk cfg trains tracks a = true := by
  simp only [modelFeasible, Bool.and_eq_true] at h
  tauto

/-! ## Claim theorems -/

/-- C1: the model built by `_create_model` does not enforce route
continuity.  The concrete train `T1` has the derived chain `[K1, K2]`;
the assignment occupies `K1` at tick 0 only and `K2` at tick 3 only, so
the train leaves `K1` at tick 0 without entering `K2` at tick 1 — yet
every emitted constraint is satisfied (each `leaving` auxiliary is
simply false, and nothing forces it true).  The claimed implication
`x[t,k_i,τ]=1 ∧ x[t,k_i,τ+1]=0 → x[t,k_{i+1},τ+1]=1` therefore fails on
a feasible assignment, contradicting the comment in
`_add_route_continuity_constraints`. -/
theorem route_continuity_not_enforced :
    modelFeasible cfgH4 trainsC1 tracksC1 [] assignC1 = true ∧
    get_route_segments trainT1C1 tracksC1 = ["K1", "K2"] ∧
    assignC1.x "T1" "K1" 0 = true ∧
    assignC1.x "T1" "K1" 1 = false ∧
    assignC1.x "T1" "K2" 1 = false := by
  decide

/-- C5 counterexample: `_create_model` materializes an occupancy
variable for the pair `(T1, K2)` although `K2` is not on the induced
segment chain of `T1` (which is exactly `[K1]`). -/
theorem x_materialized_off_route :
    ("T1", "K2") ∈ xKeys trainsC5 tracksC5 ∧
    get_route_segments trainT1C5 tracksC5 = ["K1"] ∧
    (get_route_segments trainT1C5 tracksC5).contains "K2" = false := by
  decide

/-- C5 amended: the occupancy arena is dense, not sparse — `x` has a key
for a (train id, segment id) pair exactly when the train is in the input
train list and the segment is in the input track list, regardless of the
route of the train. -/
theorem xKeys_dense (trains : List TrainData) (tracks : List TrackData)
    (tid sid : String) :
    (tid, sid) ∈ xKeys trains tracks ↔
      tid ∈ trains.map TrainData.train_id ∧ sid ∈ tracks.map TrackData.segment_id := by
  simp only [xKeys, List.mem_flatMap, List.mem_map, Prod.mk.injEq]
  constructor
  · rintro ⟨tr, htr, kk, hkk, h1, h2⟩
    exact ⟨⟨tr, htr, h1⟩, ⟨kk, hkk, h2⟩⟩
  · rintro ⟨⟨tr, htr, h1⟩, ⟨kk, hkk, h2⟩⟩
    exact ⟨tr, htr, kk, hkk, h1, h2⟩

/-- C6: the objective minimized by `_set_objective` equals the closed
formula of the spec
`Σ_t wD·(6−priority)·mP·s[t] + Σ_t wD·0.1·j[t] + Σ_q wC·(6−severity)·c[q]
 + wD·0.01·Σ_t s[t]` for every input. -/
theorem objective_matches_spec (cfg : OptimizationConfig)
    (trains : List TrainData) (conflicts : List ConflictData) (a : Assign) :
    objectiveValue cfg trains conflicts a = objectiveSpecFormula cfg trains conflicts a := by
  simp only [objectiveValue, objectiveTerms, objectiveSpecFormula,
    List.sum_append, List.sum_cons, List.sum_nil]
  ring

/-- C7: `optimize` returns a result carrying a schedule exactly on
`OPTIMAL` and `FEASIBLE`; on `INFEASIBLE` and on `UNKNOWN` it raises the
one `"no feasible solution"` error — the same error for both statuses,
with no distinct solver-fault kind. -/
theorem optimize_failure_semantics (trains : List TrainData)
    (tracks : List TrackData) (conflicts : List ConflictData)
    (cfg : OptimizationConfig) (a : Assign) :
    (optimize trains tracks conflicts cfg CpStatus.OPTIMAL a).isOk = true ∧
    (optimize trains tracks conflicts cfg CpStatus.FEASIBLE a).isOk = true ∧
    optimize trains tracks conflicts cfg CpStatus.INFEASIBLE a =
      Except.error "Optimization failed - no feasible solution found" ∧
    optimize trains tracks conflicts cfg CpStatus.UNKNOWN a =
      Except.error "Optimization failed - no feasible solution found" :=
  ⟨rfl, rfl, rfl, rfl⟩

/-- C10: `GurobiOptimizer.optimize` delegates to the OR-Tools
implementation unconditionally — whether or not `gurobipy` imported, it
computes exactly what `RailwayOptimizer.optimize` computes on the same
input. -/
theorem gurobi_optimize_delegates (gurobi_available : Bool)
    (trains : List TrainData) (tracks : List TrackData)
    (conflicts : List ConflictData) (cfg : OptimizationConfig)
    (st : CpStatus) (a : Assign) :
    gurobi_optimize gurobi_available trains tracks conflicts cfg st a =
      optimize trains tracks conflicts cfg st a := by
  cases gurobi_available <;> rfl

/-- C3 counterexample: with `T2` on the shared track at tick 0 and `T1`
one tick later, every emitted constraint holds (the exclusion is only
emitted with the earlier-listed train as `t₁`), yet the claimed property
over every ordered pair of distinct trains fails for the pair
`(T2, T1)` at `τ = 0`, `h = 1`. -/
theorem headway_ordered_pair_cex :
    modelFeasible cfgH8 trainsC3 tracksC3 [] assignC3 = true ∧
    ¬ headwayClaimProp cfgH8 trainsC3 tracksC3 assignC3 := by
  refine ⟨by decide, fun hcl => ?_⟩
  have h := hcl trainT2C3 (by decide) trainT1C3 (by decide) (by decide)
    trackC3 (by decide) 0 1 (by decide) (by decide) (by decide) (by decide)
  exact absurd h (by decide)

/-- C3 amended: the headway exclusion holds for the pairs the builder
emits — first train earlier in the input list than the second — and for
ticks `τ < H − (hB+3)`, with `h` in `1 … hB+3`: in every feasible
assignment, occupancy of the earlier-listed train at `τ` excludes the
later-listed train at `τ + h`. -/
theorem headway_list_order_emitted (cfg : OptimizationConfig)
    (trains : List TrainData) (tracks : List TrackData)
    (conflicts : List ConflictData) (a : Assign)
    (hfeas : modelFeasible cfg trains tracks conflicts a = true) :
    ∀ pr ∈ idxPairs trains, ∀ k ∈ tracks, ∀ τ h : Nat,
      τ < cfg.time_horizon_minutes - (cfg.headway_buffer_minutes + 3) →
      1 ≤ h → h ≤ cfg.headway_buffer_minutes + 3 →
      a.x pr.1.train_id k.segment_id τ = true →
      a.x pr.2.train_id k.segment_id (τ + h) = false := by
  intro pr hpr k hk τ h hτ h1 h2 hx
  have hh := (modelFeasible_parts hfeas).2.2.2.1
  simp only [headwayOk, List.all_eq_true] at hh
  have hcon := hh k hk pr hpr τ (List.mem_range.mpr hτ) (h - 1)
    (List.mem_range.mpr (by omega))
  have hlt : τ + (h - 1 + 1) < cfg.time_horizon_minutes := by omega
  rw [if_pos hlt] at hcon
  have hres := bimp_eq.mp hcon hx
  have hidx : h - 1 + 1 = h := by omega
  rw [hidx] at hres
  simpa using hres

/-- C3 witness: the amended headway theorem applied to the concrete
feasible instance, pair `(T1, T2)` in list order, `τ = 1`, `h = 1`. -/
theorem headway_list_order_emitted_witness :
    assignC3.x trainT2C3.train_id trackC3.segment_id (1 + 1) = false :=
  headway_list_order_emitted cfgH8 trainsC3 tracksC3 [] assignC3 (by decide)
    (trainT1C3, trainT2C3) (by decide) trackC3 (by decide) 1 1
    (by decide) (by decide) (by decide) (by decide)

/-- C4 counterexample: a `platform_conflict` conflict over a real track
is never reified by `_add_conflict_constraints`; the concrete feasible
assignment occupies nothing (so `Σ x ≤ cap` at every tick) yet sets
`c[q1] = 1`, falsifying the claimed "any of the four conflict kinds"
property. -/
theorem conflict_kind_not_reified_cex :
    modelFeasible cfgH4 trainsC4 tracksC4 [conflictC4] assignC4 = true ∧
    ¬ conflictClaimProp cfgH4 tracksC4 [conflictC4] assignC4 := by
  refine ⟨by decide, fun hcl => ?_⟩
  have h := (hcl conflictC4 (by decide) trackC4 (by decide) (by decide)
    0 (by decide)).1 (by decide)
  exact absurd h (by decide)

/-- C4 amended: the reification holds exactly for the conflicts the
builder handles — kind `track_occupation`, resource matching a track,
and more than one involved train with variables: per tick, occupancy at
most capacity forces `c[q]=0` and occupancy beyond capacity forces
`c[q]=1` (over the involved trains that are in the input train list).
The `conflicts_resolved` metric is the count of conflicts with
`c[q]=0`. -/
theorem conflict_reification_amended (cfg : OptimizationConfig)
    (trains : List TrainData) (tracks : List TrackData)
    (conflicts : List ConflictData) (a : Assign)
    (hfeas : modelFeasible cfg trains tracks conflicts a = true) :
    (∀ q ∈ conflicts, q.conflict_type = "track_occupation" →
      ∀ k : TrackData,
        tracks.find? (fun kk => kk.segment_id == q.resource_id) = some k →
        1 < (conflictPresent trains tracks q).length →
        ∀ τ, τ < cfg.time_horizon_minutes →
          (conflictOccCount trains tracks q a τ ≤ k.capacity →
            a.c q.conflict_id = false) ∧
          (k.capacity + 1 ≤ conflictOccCount trains tracks q a τ →
            a.c q.conflict_id = true)) ∧
    conflictsResolved conflicts a =
      conflicts.countP (fun q => !(a.c q.conflict_id)) := by
  constructor
  · intro q hq htype k hfind hlen τ hτ
    have hc := (modelFeasible_parts hfeas).2.2.2.2.2.1
    simp only [conflictOk, List.all_eq_true] at hc
    have hcq := hc q hq
    rw [if_pos htype, hfind] at hcq
    simp only [List.all_eq_true, ticks] at hcq
    have hcτ := hcq τ (List.mem_range.mpr hτ)
    rw [if_pos hlen] at hcτ
    rw [Bool.and_eq_true] at hcτ
    obtain ⟨himp1, himp2⟩ := hcτ
    constructor
    · intro hocc
      cases hb : a.c q.conflict_id with
      | false => rfl
      | true =>
        have := of_decide_eq_true (bimp_eq.mp himp2 hb)
        omega
    · intro hocc
      cases hb : a.c q.conflict_id with
      | true => rfl
      | false =>
        have hnb : (!(a.c q.conflict_id)) = true := by rw [hb]; rfl
        have := of_decide_eq_true (bimp_eq.mp himp1 hnb)
        omega
  · unfold conflictsResolved
    rw [List.countP_eq_length_filter]
    have hpred : (fun q : ConflictData => decide (a.c q.conflict_id = false)) =
        (fun q : ConflictData => !(a.c q.conflict_id)) := by
      funext q
      cases h : a.c q.conflict_id <;> simp [h]
    rw [hpred]

/-- C4 witness: the amended reification applied to a concrete feasible
instance with a `track_occupation` conflict whose per-tick occupancy
never exceeds capacity, forcing its conflict variable to 0. -/
theorem conflict_reification_amended_witness :
    assignC4w.c conflictC4w.conflict_id = false :=
  ((conflict_reification_amended cfgH4 trainsC4 tracksC4 [conflictC4w] assignC4w
      (by decide)).1
    conflictC4w (by decide) (by decide) trackC4 (by decide) (by decide)
    0 (by decide)).1 (by decide)

/-! ### Extractor lemmas (C2, C8) -/

theorem maximalRunsAux_open_head_fst (occ : Nat → Bool) :
    ∀ (l : List Nat) (s0 e0 : Nat),
      (maximalRunsAux occ l (some (s0, e0))).head?.map Prod.fst = some s0
  | [], _, _ => rfl
  | τ :: rest, s0, e0 => by
    unfold maximalRunsAux
    cases h : occ τ with
    | true =>
      simp only [if_pos rfl]
      exact maximalRunsAux_open_head_fst occ rest s0 (τ + 1)
    | false => rfl

theorem findOccupation_open (occ : Nat → Bool) :
    ∀ (l : List Nat) (s0 e0 : Nat),
      findOccupation occ l (some s0) (some e0) =
        (some s0, (maximalRunsAux occ l (some (s0, e0))).head?.map Prod.snd)
  | [], _, _ => rfl
  | τ :: rest, s0, e0 => by
    unfold findOccupation maximalRunsAux
    cases h : occ τ with
    | true =>
      simp only [if_pos rfl, Option.getD_some]
      exact findOccupation_open occ rest s0 (τ + 1)
    | false => rfl

theorem findOccupation_eq_head_run (occ : Nat → Bool) :
    ∀ l : List Nat,
      findOccupation occ l none none =
        (match (maximalRunsAux occ l none).head? with
          | some r => (some r.1, some r.2)
          | none => ((none : Option Nat), (none : Option Nat)))
  | [] => rfl
  | τ :: rest => by
    unfold findOccupation maximalRunsAux
    cases h : occ τ with
    | true =>
      simp only [if_pos rfl, if_true, Option.getD_none]
      rw [findOccupation_open occ rest τ (τ + 1)]
      have hfst := maximalRunsAux_open_head_fst occ rest τ (τ + 1)
      cases hh : (maximalRunsAux occ rest (some (τ, τ + 1))).head? with
      | none => rw [hh] at hfst; cases hfst
      | some r =>
        rw [hh] at hfst
        have hr1 : r.1 = τ := by simpa using hfst
        simp [hr1]
    | false =>
      simp only [Bool.false_eq_true, if_false, Option.isSome_none, Bool.false_eq_true]
      exact findOccupation_eq_head_run occ rest

/-- The entry `_extract_schedule` produces for a (train, track) pair is
exactly the first maximal run, when one exists. -/
theorem entryFor_eq_head_run (cfg : OptimizationConfig) (tr : TrainData)
    (k : TrackData) (a : Assign) :
    entryFor cfg tr k a =
      (maximalRuns (a.x tr.train_id k.segment_id) cfg.time_horizon_minutes).head?.map
        (fun r => { train_id := tr.train_id, segment_id := k.segment_id,
                    start_time := r.1, end_time := r.2,
                    platform := platformFor tr a }) := by
  unfold entryFor maximalRuns
  rw [findOccupation_eq_head_run]
  cases (maximalRunsAux (a.x tr.train_id k.segment_id)
      (List.range cfg.time_horizon_minutes) none).head? with
  | none => rfl
  | some r => rfl

/-- C2 counterexample: the assignment has two maximal runs on
`(T1, K1)` — ticks `{0}` and `{2}` — and is feasible for the model, but
`_extract_schedule` emits a single entry: the `break` after the first
clear tick drops the second run, so not all contiguous runs appear. -/
theorem extract_drops_second_run_cex :
    modelFeasible cfgH4 trainsC2 tracksC2 [] assignC2 = true ∧
    maximalRuns (assignC2.x "T1" "K1") cfgH4.time_horizon_minutes =
      [(0, 1), (2, 3)] ∧
    extract_schedule cfgH4 trainsC2 tracksC2 assignC2 =
      [{ train_id := "T1", segment_id := "K1", start_time := 0, end_time := 1,
         platform := some 1 }] := by
  decide

/-- C2 amended: for every assignment, `_extract_schedule` produces — per
(train, track) pair in input order — one `ScheduleEntry` for the FIRST
maximal contiguous run of `x[t,k,τ]=1` only (start instant `τ`, end
instant `τ_last + 1`, platform from the first route station), dropping
any later runs, and then stably sorts the entries by start instant. -/
theorem extract_schedule_first_run_only (cfg : OptimizationConfig)
    (trains : List TrainData) (tracks : List TrackData) (a : Assign) :
    extract_schedule cfg trains tracks a =
      sortByStart (trains.flatMap fun tr => tracks.filterMap fun k =>
        (maximalRuns (a.x tr.train_id k.segment_id)
            cfg.time_horizon_minutes).head?.map
          (fun r => { train_id := tr.train_id, segment_id := k.segment_id,
                      start_time := r.1, end_time := r.2,
                      platform := platformFor tr a })) := by
  simp only [extract_schedule, entryFor_eq_head_run]

/-! ### Sorting lemmas (C8) -/

theorem mem_insertByStart {e x : ScheduleEntry} :
    ∀ {l : List ScheduleEntry}, x ∈ insertByStart e l ↔ x = e ∨ x ∈ l := by
  intro l
  induction l with
  | nil => simp [insertByStart]
  | cons f rest ih =>
    unfold insertByStart
    by_cases h : f.start_time ≤ e.start_time
    · rw [if_pos h]
      simp only [List.mem_cons, ih]
      tauto
    · rw [if_neg h]
      simp [List.mem_cons]

theorem pairwise_insertByStart {e : ScheduleEntry} :
    ∀ {l : List ScheduleEntry}, l.Pairwise startLE →
      (insertByStart e l).Pairwise startLE := by
  intro l
  induction l with
  | nil => intro _; exact List.pairwise_singleton _ _
  | cons f rest ih =>
    intro h
    obtain ⟨hf, hrest⟩ := List.pairwise_cons.mp h
    unfold insertByStart
    by_cases hle : f.start_time ≤ e.start_time
    · rw [if_pos hle]
      refine List.pairwise_cons.mpr ⟨?_, ih hrest⟩
      intro y hy
      rcases mem_insertByStart.mp hy with hye | hymem
      · rw [hye]; exact hle
      · exact hf y hymem
    · rw [if_neg hle]
      refine List.pairwise_cons.mpr ⟨?_, h⟩
      intro y hy
      rcases List.mem_cons.mp hy with hyf | hymem
      · rw [hyf]; exact Nat.le_of_lt (Nat.lt_of_not_le hle)
      · exact Nat.le_trans (Nat.le_of_lt (Nat.lt_of_not_le hle)) (hf y hymem)

theorem pairwise_sortByStart_foldl :
    ∀ (l acc : List ScheduleEntry), acc.Pairwise startLE →
      (l.foldl (fun acc2 e => insertByStart e acc2) acc).Pairwise startLE
  | [], _, h => h
  | e :: rest, acc, h =>
    pairwise_sortByStart_foldl rest (insertByStart e acc) (pairwise_insertByStart h)

/-- C8 amended: `_extract_schedule` returns a list sorted ascending by
start instant (the stable single-key Python sort); entries with equal
start instants keep generation order — trains in input-list order, then
tracks in input-list order — not train-id order. -/
theorem extract_schedule_sorted_by_start (cfg : OptimizationConfig)
    (trains : List TrainData) (tracks : List TrackData) (a : Assign) :
    (extract_schedule cfg trains tracks a).Pairwise startLE :=
  pairwise_sortByStart_foldl _ [] List.Pairwise.nil

/-- C8 counterexample: a feasible assignment with two trains starting at
the same tick, the larger train id listed first; the extractor keeps
generation order on the tie, so the list is not ordered by train id
ascending. -/
theorem extract_tie_not_by_train_id_cex :
    modelFeasible cfgH4 trainsC8 tracksC8 [] assignC8 = true ∧
    extract_schedule cfgH4 trainsC8 tracksC8 assignC8 =
      [{ train_id := "B", segment_id := "K1", start_time := 0, end_time := 1,
         platform := some 1 },
       { train_id := "A", segment_id := "K2", start_time := 0, end_time := 1,
         platform := some 1 }] ∧
    ¬ (extract_schedule cfgH4 trainsC8 tracksC8 assignC8).Pairwise startThenIdLE := by
  refine ⟨by decide, by decide, fun hp => ?_⟩
  rw [show extract_schedule cfgH4 trainsC8 tracksC8 assignC8 =
      [{ train_id := "B", segment_id := "K1", start_time := 0, end_time := 1,
         platform := some 1 },
       { train_id := "A", segment_id := "K2", start_time := 0, end_time := 1,
         platform := some 1 }] from by decide] at hp
  obtain ⟨hBA, -⟩ := List.pairwise_cons.mp hp
  have h := hBA _ (List.mem_singleton.mpr rfl)
  rcases h with h1 | ⟨-, h2 | h3⟩
  · exact absurd h1 (by decide)
  · exact absurd h2 (by decide)
  · exact absurd h3 (by decide)

/-! ### Monitor lemmas (C9) -/

theorem takeLast_length_le (n : Nat) (l : List α) : (takeLast n l).length ≤ n := by
  simp only [takeLast, List.length_drop]
  omega

theorem trunc_eq_takeLast (G : List OptimizationMetrics) :
    (if 100 < G.length then G.drop (G.length - 100) else G) = takeLast 100 G := by
  by_cases h : 100 < G.length
  · rw [if_pos h]; rfl
  · rw [if_neg h]
    unfold takeLast
    have h0 : G.length - 100 = 0 := by omega
    rw [h0, List.drop_zero]

theorem takeLast100_append_singleton (l : List α) (u : α) :
    takeLast 100 (takeLast 100 l ++ [u]) = takeLast 100 (l ++ [u]) := by
  by_cases h : l.length ≤ 100
  · have h0 : l.length - 100 = 0 := by omega
    unfold takeLast
    rw [h0, List.drop_zero]
  · unfold takeLast
    have hA : (l.drop (l.length - 100)).length = 100 := by
      rw [List.length_drop]; omega
    have h1 : (l.drop (l.length - 100) ++ [u]).length - 100 = 1 := by
      rw [List.length_append, hA]; rfl
    have h2 : (l ++ [u]).length - 100 = l.length - 99 := by
      rw [List.length_append]; simp only [List.length_cons, List.length_nil]; omega
    rw [h1, h2, List.drop_append_eq_append_drop, List.drop_append_eq_append_drop,
        List.drop_drop]
    have h3 : l.length - 100 + 1 = l.length - 99 := by omega
    have h4 : 1 - (List.drop (l.length - 100) l).length = 0 := by
      rw [hA]
    have h5 : l.length - 99 - l.length = 0 := by omega
    rw [h3, h4, h5]

theorem monitorStep_rel (op : MonitorOp) (mB mU : PerformanceMonitor)
    (hc : mB.current_metrics = mU.current_metrics)
    (hh : mB.metrics_history = takeLast 100 mU.metrics_history) :
    (monitorStep mB op).current_metrics =
        (monitorStepUnbounded mU op).current_metrics ∧
    (monitorStep mB op).metrics_history =
        takeLast 100 (monitorStepUnbounded mU op).metrics_history := by
  cases op with
  | startOpt nt nk nc => exact ⟨rfl, hh⟩
  | endOpt obj res delay status =>
    cases hcu : mU.current_metrics with
    | none =>
      have hcb : mB.current_metrics = none := by rw [hc, hcu]
      simp only [monitorStep, monitorStepUnbounded, end_optimization,
        end_optimization_unbounded, hcb, hcu]
      exact ⟨trivial, hh⟩
    | some cur0 =>
      have hcb : mB.current_metrics = some cur0 := by rw [hc, hcu]
      simp only [monitorStep, monitorStepUnbounded, end_optimization,
        end_optimization_unbounded, hcb, hcu]
      refine ⟨trivial, ?_⟩
      rw [hh, trunc_eq_takeLast, takeLast100_append_singleton]

theorem runMonitor_rel :
    ∀ (ops : List MonitorOp) (mB mU : PerformanceMonitor),
      mB.current_metrics = mU.current_metrics →
      mB.metrics_history = takeLast 100 mU.metrics_history →
      (runMonitor ops mB).current_metrics =
          (runMonitorUnbounded ops mU).current_metrics ∧
      (runMonitor ops mB).metrics_history =
          takeLast 100 (runMonitorUnbounded ops mU).metrics_history
  | [], _, _, hc, hh => ⟨hc, hh⟩
  | op :: rest, mB, mU, hc, hh =>
    runMonitor_rel rest (monitorStep mB op) (monitorStepUnbounded mU op)
      (monitorStep_rel op mB mU hc hh).1 (monitorStep_rel op mB mU hc hh).2

/-- C9: after any sequence of `start_optimization`/`end_optimization`
calls from a fresh monitor, `metrics_history` holds at most 100 records,
and equals the suffix of the most recent 100 entries of the unbounded
completion-ordered journal of completed runs. -/
theorem monitor_ring_bounded (ops : List MonitorOp) :
    (runMonitor ops PerformanceMonitor.init).metrics_history.length ≤ 100 ∧
    (runMonitor ops PerformanceMonitor.init).metrics_history =
      takeLast 100 (runMonitorUnbounded ops PerformanceMonitor.init).metrics_history := by
  have h := runMonitor_rel ops PerformanceMonitor.init PerformanceMonitor.init rfl rfl
  refine ⟨?_, h.2⟩
  rw [h.2]
  exact takeLast_length_le 100 _

end RailOptima
